import Mathlib

/-!
Verification of the subsistence-strategy simulation core
(`abses_sce/hunter.py`, `abses_sce/model.py`, legacy `src/hunter.py`).

The Python code is shallowly embedded: an explicit `World` state carries the
parameter set, the cell grid, the agent roster and the random stream; every
stateful method becomes a function `World → World × Except String α`
(`Except.error` models a raised Python exception).  The base class
`SiteGroup` (`people.py`) and the environment helpers are not part of the
sources; the few members of theirs that the claims depend on are modelled
from the specification and are marked as such in their doc comments.
-/

set_option autoImplicit false

/-- Configuration scalars (`params` / `model.params` in the source;
field names follow the configuration keys used by the code). -/
structure Params where
  loss_rate : ℚ
  intensified_coefficient : ℚ
  is_complex : ℚ
  min_size : ℚ
  convert_prob : List (String × ℚ)
  new_group_size : ℚ × ℚ
  growth_rate : ℚ

/-- One agent (`SiteGroup` instance): its breed tag (the Python code
dispatches on the string `breed`), population size, liveness and the
index of the occupied cell (`None` when unplaced). -/
structure Agent where
  breed : String
  size : ℚ
  alive : Bool
  cell : Option Nat

/-- A terrain cell: the carrying-capacity attribute `lim_h` and the two
arability predicates (computed externally in `env.py`). -/
structure Cell where
  limH : ℚ
  isArable : Bool
  isRiceArable : Bool

/-- The whole simulation state.  `agents` is a total function together with
the roster size `numAgents`; `neighbors c radius moore` is the external
neighborhood query; `rng` with the cursor `rngIdx` models the random
stream (`self.random.random()` reads `rng rngIdx` and advances the cursor). -/
structure World where
  params : Params
  cells : Nat → Cell
  neighbors : Nat → Nat → Bool → List Nat
  numAgents : Nat
  agents : Nat → Agent
  rng : Nat → ℚ
  rngIdx : Nat

/-- Replace agent `i`'s record. -/
def setAgent (w : World) (i : Nat) (a : Agent) : World :=
  { w with agents := fun k => if k = i then a else w.agents k }

/-- Indices of the live occupants of cell `c` (`cell.agents` in abses:
an agent is on the cell iff its `cell` field points there). -/
def occupants (w : World) (c : Nat) : List Nat :=
  (List.range w.numAgents).filter (fun k => (w.agents k).cell == some c)

/-- `self.on_earth`: the agent occupies a cell. -/
def onEarth (w : World) (i : Nat) : Bool :=
  (w.agents i).cell.isSome

/-- `Hunter.is_complex`: `self.size > self.params.is_complex if self.on_earth
else False`. -/
def isComplex (w : World) (i : Nat) : Bool :=
  onEarth w i && decide ((w.agents i).size > w.params.is_complex)

/-- `Hunter.max_size`: `np.ceil(self.loc("lim_h")) if self.on_earth else
100_000_000`. -/
def maxSize (w : World) (i : Nat) : ℚ :=
  match (w.agents i).cell with
  | some c => (⌈(w.cells c).limH⌉ : ℚ)
  | none => 100000000

/-- Minimum of two rationals, written so that the kernel can evaluate it. -/
def rmin (a b : ℚ) : ℚ := if a ≤ b then a else b

/-- Maximum of two rationals, written so that the kernel can evaluate it. -/
def rmax (a b : ℚ) : ℚ := if a ≤ b then b else a

theorem rmin_eq (a b : ℚ) : rmin a b = min a b := (min_def a b).symm

theorem rmax_eq (a b : ℚ) : rmax a b = max a b := by
  by_cases h : a ≤ b <;> simp [rmax, max_def, h]

/-- Modelled from the spec: the `SiteGroup` size setter (`people.py` is not
among the sources); spec §3/§4.1: any assigned size is clamped to
`[min_size, max_size]` immediately. -/
def clampedSize (w : World) (i : Nat) (v : ℚ) : ℚ :=
  rmax w.params.min_size (rmin v (maxSize w i))

theorem clampedSize_eq (w : World) (i : Nat) (v : ℚ) :
    clampedSize w i v = max w.params.min_size (min v (maxSize w i)) := by
  rw [clampedSize, rmin_eq, rmax_eq]

/-- `loser.size *= loss` etc. go through the clamping setter. -/
def setSize (w : World) (i : Nat) (v : ℚ) : World :=
  setAgent w i { w.agents i with size := clampedSize w i v }

/-- Modelled from the spec: `SiteGroup.die` (`people.py` is not among the
sources); spec §4.1: sets `alive = false` and unplaces the agent. -/
def die (w : World) (i : Nat) : World :=
  setAgent w i { w.agents i with alive := false, cell := none }

/-- Modelled from the spec: the structural part of `SiteGroup.put_on`
(`people.py` is not among the sources); spec §4.1 `placeOn`: record the
new cell (or unplace when given `none`). -/
def placeOn (w : World) (i : Nat) (c : Option Nat) : World :=
  setAgent w i { w.agents i with cell := c }

/-- Advance the random cursor by `n` draws. -/
def advanceRng (w : World) (n : Nat) : World :=
  { w with rngIdx := w.rngIdx + n }

/-- Sequencing of stateful computations that can raise: a raise aborts the
continuation but keeps the state mutated so far. -/
def bindE {α β : Type} (p : World × Except String α)
    (f : World → α → World × Except String β) : World × Except String β :=
  match p with
  | (w, Except.ok a) => f w a
  | (w, Except.error e) => (w, Except.error e)

/-- Map over the result of a stateful computation. -/
def mapE {α β : Type} (p : World × Except String α) (f : α → β) :
    World × Except String β :=
  bindE p (fun w a => (w, Except.ok (f a)))

theorem bindE_ok {α β : Type} (w : World) (a : α)
    (f : World → α → World × Except String β) :
    bindE (w, Except.ok a) f = f w a := rfl

theorem bindE_error {α β : Type} (w : World) (e : String)
    (f : World → α → World × Except String β) :
    bindE (w, Except.error e) f = (w, Except.error e) := rfl

theorem mapE_fst {α β : Type} (p : World × Except String α) (f : α → β) :
    (mapE p f).1 = p.1 := by
  obtain ⟨w, r⟩ := p
  cases r <;> rfl

theorem setAgent_params (w : World) (i : Nat) (a : Agent) :
    (setAgent w i a).params = w.params := rfl

theorem setAgent_numAgents (w : World) (i : Nat) (a : Agent) :
    (setAgent w i a).numAgents = w.numAgents := rfl

theorem setAgent_cells (w : World) (i : Nat) (a : Agent) :
    (setAgent w i a).cells = w.cells := rfl

theorem setAgent_agents (w : World) (i : Nat) (a : Agent) (k : Nat) :
    (setAgent w i a).agents k = if k = i then a else w.agents k := rfl

/-- Modelled from the spec: the type of `search_a_new_place` (`people.py` is
not among the sources); spec §4.4: given the current state, a mover and a
radius it yields a vacant candidate cell in the neighborhood, or nothing. -/
abbrev SearchFn := World → Nat → Nat → Option Nat

/-- The type of `put_on` as a state transformer. -/
abbrev PutFn := World → Nat → Option Nat → World × Except String Unit

/-- `Hunter.move` with the recursive call to `put_on` abstracted: move only
when not complex and placed; search for a new place; relocate through
`put_on` and report `True`, otherwise report `False`. -/
def moveWith (s : SearchFn) (put : PutFn) (w : World) (i : Nat)
    (radius : Nat) : World × Except String Bool :=
  if !isComplex w i && onEarth w i then
    match s w i radius with
    | some c => mapE (put w i (some c)) (fun _ => true)
    | none => (w, Except.ok false)
  else (w, Except.ok false)

/-- `Hunter._loss_competition` with the call to `move` abstracted:
Farmer/RiceFarmer losers die; complex Hunter losers die; other Hunter
losers shrink by `loss_rate` and, if still placed, move once; any other
breed raises `TypeError`. -/
def lossWith (mv : World → Nat → World × Except String Bool) (w : World)
    (loser : Nat) : World × Except String Unit :=
  if (w.agents loser).breed = "Farmer" ∨ (w.agents loser).breed = "RiceFarmer" then
    (die w loser, Except.ok ())
  else if (w.agents loser).breed = "Hunter" then
    if isComplex w loser then (die w loser, Except.ok ())
    else
      let w1 := setSize w loser ((w.agents loser).size * w.params.loss_rate)
      if onEarth w1 loser then mapE (mv w1 loser) (fun _ => ())
      else (w1, Except.ok ())
  else (w, Except.error "Agent must be Farmer or Hunter.")

/-- `Hunter._compete_with_hunter`: direct size comparison, ties favor the
initiator `i`; the penalty goes to the loser. -/
def competeWithHunter (loss : World → Nat → World × Except String Unit)
    (w : World) (i j : Nat) : World × Except String Bool :=
  if (w.agents i).size ≥ (w.agents j).size then
    mapE (loss w j) (fun _ => true)
  else
    mapE (loss w i) (fun _ => false)

/-- `Hunter._compete_with_farmer`: the initiator's power is
`size * intensified_coefficient`; ties favor the initiator. -/
def competeWithFarmer (loss : World → Nat → World × Except String Unit)
    (w : World) (i j : Nat) : World × Except String Bool :=
  if (w.agents i).size * w.params.intensified_coefficient ≥ (w.agents j).size then
    mapE (loss w j) (fun _ => true)
  else
    mapE (loss w i) (fun _ => false)

/-- `Hunter.compete`: dispatch on the opponent's breed tag; any other tag
raises `TypeError`. -/
def competeWith (loss : World → Nat → World × Except String Unit)
    (w : World) (i j : Nat) : World × Except String Bool :=
  if (w.agents j).breed = "Farmer" ∨ (w.agents j).breed = "RiceFarmer" then
    competeWithFarmer loss w i j
  else if (w.agents j).breed = "Hunter" then
    competeWithHunter loss w i j
  else (w, Except.error "Agent must be Farmer or Hunter.")

/-- `Hunter.put_on` with the call to `compete` abstracted: read the first
incumbent of the target cell, place the arriving agent structurally, then
compete with the incumbent if there was one. -/
def putOnWith (cp : World → Nat → Nat → World × Except String Bool)
    (w : World) (i : Nat) (c : Option Nat) : World × Except String Unit :=
  match c with
  | none => (placeOn w i none, Except.ok ())
  | some c =>
    match (occupants w c).head? with
    | some j => mapE (cp (placeOn w i (some c)) i j) (fun _ => ())
    | none => (placeOn w i (some c), Except.ok ())

/-- `Hunter.put_on`, with a fuel bound on the nesting depth of the
`put_on → compete → _loss_competition → move → put_on` cycle; exhausted
fuel is reported as an error and never happens for the nesting depths the
code actually reaches. -/
def putOn (s : SearchFn) : Nat → PutFn
  | 0 => fun w _ _ => (w, Except.error "recursion limit reached")
  | fuel + 1 =>
    putOnWith (competeWith (lossWith (fun w m => moveWith s (putOn s fuel) w m 1)))

/-- `Hunter.move` (the default radius at call sites is 1). -/
def move (s : SearchFn) (fuel : Nat) (w : World) (i : Nat) (radius : Nat) :
    World × Except String Bool :=
  moveWith s (putOn s fuel) w i radius

/-- `Hunter._loss_competition`. -/
def lossCompetition (s : SearchFn) (fuel : Nat) (w : World) (loser : Nat) :
    World × Except String Unit :=
  lossWith (fun w m => move s fuel w m 1) w loser

/-- `Hunter.compete`. -/
def compete (s : SearchFn) (fuel : Nat) (w : World) (i j : Nat) :
    World × Except String Bool :=
  competeWith (lossCompetition s fuel) w i j

theorem putOn_succ (s : SearchFn) (fuel : Nat) (w : World) (i : Nat)
    (c : Option Nat) :
    putOn s (fuel + 1) w i c = putOnWith (compete s fuel) w i c := rfl

/-- `convert_prob.get(key, 0.0)`: a missing key defaults to zero. -/
def probGet (ps : List (String × ℚ)) (k : String) : ℚ :=
  match ps.lookup k with
  | some p => p
  | none => 0

/-- `cell.has_agent(breed=b)`: some agent of breed `b` occupies cell `c`. -/
def hasAgentBreed (w : World) (b : String) (c : Nat) : Bool :=
  (List.range w.numAgents).any
    (fun k => ((w.agents k).cell == some c) && ((w.agents k).breed == b))

/-- `self._cell.convert(self, b)` (external `CompetingCell.convert`): the
occupant's strategy tag is replaced in place, size and position kept. -/
def cellConvert (w : World) (i : Nat) (b : String) : World :=
  setAgent w i { w.agents i with breed := b }

/-- `Hunter._convert_to_farmer`: a neighboring Farmer, an arable cell and a
fresh draw below `convert_prob["to_farmer"]` are all required; the draw is
consumed whether or not the other conditions hold.  The boolean result
records whether the conversion happened (`agent is not self` in the
caller); an unplaced agent makes the Python attribute access fail. -/
def convertToFarmer (w : World) (i : Nat) (radius : Nat) (moore : Bool) :
    World × Except String Bool :=
  match (w.agents i).cell with
  | none => (w, Except.error "AttributeError")
  | some c =>
    let cond1 := (w.neighbors c radius moore).any (fun x => hasAgentBreed w "Farmer" x)
    let cond2 := (w.cells c).isArable
    let cond3 := decide (w.rng w.rngIdx < probGet w.params.convert_prob "to_farmer")
    if cond1 && cond2 && cond3 then
      (cellConvert (advanceRng w 1) i "Farmer", Except.ok true)
    else (advanceRng w 1, Except.ok false)

/-- `Hunter._convert_to_rice`: same shape with a neighboring RiceFarmer,
rice arability and `convert_prob["to_rice"]`. -/
def convertToRice (w : World) (i : Nat) (radius : Nat) (moore : Bool) :
    World × Except String Bool :=
  match (w.agents i).cell with
  | none => (w, Except.error "AttributeError")
  | some c =>
    let cond1 := (w.neighbors c radius moore).any (fun x => hasAgentBreed w "RiceFarmer" x)
    let cond2 := (w.cells c).isRiceArable
    let cond3 := decide (w.rng w.rngIdx < probGet w.params.convert_prob "to_rice")
    if cond1 && cond2 && cond3 then
      (cellConvert (advanceRng w 1) i "RiceFarmer", Except.ok true)
    else (advanceRng w 1, Except.ok false)

/-- `Hunter.convert`: try the farmer path first; only when it did not
convert, try the rice path. -/
def convert (w : World) (i : Nat) (radius : Nat) (moore : Bool) :
    World × Except String Bool :=
  bindE (convertToFarmer w i radius moore) (fun w1 b =>
    if b then (w1, Except.ok true) else convertToRice w1 i radius moore)

/-- Modelled from the spec: the splitting branch of `SiteGroup.diffuse`
(`people.py` is not among the sources); spec §4.4: a sibling of the same
strategy is split off with a magnitude drawn from `new_group_size`,
the parent is reduced by the split amount, and the newborn's placement is
owned by the external population collaborator (it starts unplaced here). -/
def siteGroupDiffuse (w : World) (i : Nat) : World × Except String (Option Nat) :=
  let lo := w.params.new_group_size.1
  let hi := w.params.new_group_size.2
  let s := lo + w.rng w.rngIdx * (hi - lo)
  let w1 := advanceRng w 1
  let w2 := setSize w1 i ((w1.agents i).size - s)
  let baby : Agent := { breed := (w.agents i).breed, size := s, alive := true, cell := none }
  ({ w2 with numAgents := w2.numAgents + 1,
             agents := fun k => if k = w2.numAgents then baby else w2.agents k },
   Except.ok (some w2.numAgents))

/-- `Hunter.diffuse`: split only at carrying capacity (`size >= max_size`);
otherwise the Python method falls through and returns `None`. -/
def diffuse (w : World) (i : Nat) : World × Except String (Option Nat) :=
  if (w.agents i).size ≥ maxSize w i then siteGroupDiffuse w i
  else (w, Except.ok none)

/-- Modelled from the spec: `SiteGroup.population_growth` (`people.py` is
not among the sources); spec §6 exposes `populationGrowth(rate)` growing
the clamped population, the default rate coming from the configuration. -/
def popGrowth (w : World) (i : Nat) : World :=
  setSize w i ((w.agents i).size * (1 + w.params.growth_rate))

/-- `Model.trigger`: iterate the given roster in order, skipping any agent
that is not `on_earth` at the moment the iteration reaches it; a raise
aborts the remaining iteration (Python exception propagation). -/
def triggerE (f : World → Nat → World × Except String Unit) :
    List Nat → World → World × Except String Unit
  | [], w => (w, Except.ok ())
  | i :: ids, w =>
    if onEarth w i then bindE (f w i) (fun w1 _ => triggerE f ids w1)
    else triggerE f ids w

/-- `self.actors`: the whole roster. -/
def actorIds (w : World) : List Nat :=
  List.range w.numAgents

/-- `self.hunters`: the roster filtered to breed `Hunter`. -/
def hunterIds (w : World) : List Nat :=
  (List.range w.numAgents).filter (fun k => (w.agents k).breed == "Hunter")

/-- Tick phase 1: `self.trigger(self.actors, "population_growth")`. -/
def growthPhase (w : World) : World × Except String Unit :=
  triggerE (fun w i => (popGrowth w i, Except.ok ())) (actorIds w) w

/-- Tick phase 2: `self.trigger(self.actors, "convert")`. -/
def convertPhase (w : World) : World × Except String Unit :=
  triggerE (fun w i => mapE (convert w i 1 false) (fun _ => ())) (actorIds w) w

/-- Tick phase 3: `self.trigger(self.actors, "diffuse")`. -/
def diffusePhase (w : World) : World × Except String Unit :=
  triggerE (fun w i => mapE (diffuse w i) (fun _ => ())) (actorIds w) w

/-- Tick phase 4: `self.trigger(self.hunters, "move")`. -/
def movePhase (s : SearchFn) (fuel : Nat) (w : World) : World × Except String Unit :=
  triggerE (fun w i => mapE (move s fuel w i 1) (fun _ => ())) (hunterIds w) w

/-- `Model.step`: `nature.add_farmers()` (external, passed in as
`addFarmers`), then the four phases in their fixed order.  The trailing
statistics bookkeeping of the Python method touches no simulation state
and is outside the modelled core. -/
def step (addFarmers : World → World) (s : SearchFn) (fuel : Nat) (w : World) :
    World × Except String Unit :=
  bindE (growthPhase (addFarmers w)) (fun w1 _ =>
  bindE (convertPhase w1) (fun w2 _ =>
  bindE (diffusePhase w2) (fun w3 _ =>
  movePhase s fuel w3)))

/-- Modelled from the spec: `SiteGroup.move_to` used by the legacy loss
handler (`src/people.py` is not among the sources); relocate to a cell the
movement policy finds, if any (spec §4.4 movement). -/
def moveTo (s : SearchFn) (w : World) (i : Nat) : World × Except String Unit :=
  match s w i 1 with
  | some c => (placeOn w i (some c), Except.ok ())
  | none => (w, Except.ok ())

/-- Legacy `Hunter._loss_competition` (`src/src/hunter.py`): only the tag
`Farmer` dies; a `Hunter` loser always shrinks and relocates, complex or
not; other tags raise `TypeError`. -/
def legacyLossCompetition (s : SearchFn) (w : World) (loser : Nat) :
    World × Except String Unit :=
  if (w.agents loser).breed = "Farmer" then (die w loser, Except.ok ())
  else if (w.agents loser).breed = "Hunter" then
    let w1 := setSize w loser ((w.agents loser).size * w.params.loss_rate)
    moveTo s w1 loser
  else (w, Except.error "Agent must be Farmer or Hunter.")

/-- Legacy `Hunter.compete` (`src/src/hunter.py`): a single combined
condition decides the win, the `Farmer`/`Hunter` membership check runs
only on the losing branch, and `RiceFarmer` is not a recognized tag. -/
def legacyCompete (s : SearchFn) (w : World) (i j : Nat) :
    World × Except String Bool :=
  if ((w.agents j).breed = "Farmer" ∧
        (w.agents i).size * w.params.intensified_coefficient ≥ (w.agents j).size) ∨
     ((w.agents j).breed ≠ "Farmer" ∧ (w.agents j).breed = "Hunter" ∧
        (w.agents i).size ≥ (w.agents j).size) then
    mapE (legacyLossCompetition s w j) (fun _ => true)
  else if (w.agents j).breed ≠ "Farmer" ∧ (w.agents j).breed ≠ "Hunter" then
    (w, Except.error "Agent must be Farmer or Hunter.")
  else
    mapE (legacyLossCompetition s w i) (fun _ => false)

/-- A cell index strictly above every occupied index: used to exhibit
searches that always find a vacant cell. -/
def freshCell (w : World) : Nat :=
  ((List.range w.numAgents).map (fun k => ((w.agents k).cell.getD 0) + 1)).foldr max 0

theorem le_foldr_max (l : List Nat) (x : Nat) (hx : x ∈ l) : x ≤ l.foldr max 0 := by
  induction l with
  | nil => cases hx
  | cons a l ih =>
    rcases List.mem_cons.mp hx with h | h
    · subst h; exact Nat.le_max_left _ _
    · exact le_trans (ih h) (Nat.le_max_right _ _)

theorem mem_occupants (w : World) (c k : Nat) :
    k ∈ occupants w c ↔ k < w.numAgents ∧ (w.agents k).cell = some c := by
  simp [occupants, List.mem_filter, List.mem_range]

theorem occupants_freshCell (w : World) : occupants w (freshCell w) = [] := by
  rw [List.eq_nil_iff_forall_not_mem]
  intro k hk
  rw [mem_occupants] at hk
  obtain ⟨hlt, hcell⟩ := hk
  have hx : ((w.agents k).cell.getD 0) + 1 ∈
      (List.range w.numAgents).map (fun k => ((w.agents k).cell.getD 0) + 1) :=
    List.mem_map.mpr ⟨k, List.mem_range.mpr hlt, rfl⟩
  have hle : ((w.agents k).cell.getD 0) + 1 ≤ freshCell w := le_foldr_max _ _ hx
  rw [hcell] at hle
  simp only [Option.getD_some] at hle
  omega

theorem occupants_eq_single (w : World) (c m : Nat) (hm : m < w.numAgents)
    (hpm : (w.agents m).cell = some c)
    (huniq : ∀ k, k < w.numAgents → (w.agents k).cell = some c → k = m) :
    occupants w c = [m] := by
  have key : ∀ n, n ≤ w.numAgents →
      (List.range n).filter (fun k => (w.agents k).cell == some c) =
      (if m < n then [m] else []) := by
    intro n
    induction n with
    | zero => intro _; simp
    | succ n ih =>
      intro hn
      rw [List.range_succ, List.filter_append, ih (Nat.le_of_succ_le hn)]
      by_cases hmn : m < n
      · have hne : n ≠ m := by omega
        have hnc : (w.agents n).cell ≠ some c := fun h => hne (huniq n (by omega) h)
        have hb : ((w.agents n).cell == some c) = false := beq_eq_false_iff_ne.mpr hnc
        simp [hmn, Nat.lt_succ_of_lt hmn, List.filter, hb]
      · by_cases hm_eq : m = n
        · subst hm_eq
          simp [hmn, Nat.lt_succ_self, List.filter, hpm]
        · have hne : ¬ m < n + 1 := by omega
          have hnc : (w.agents n).cell ≠ some c := fun h => hm_eq ((huniq n (by omega) h).symm)
          have hb : ((w.agents n).cell == some c) = false := beq_eq_false_iff_ne.mpr hnc
          simp [hmn, hne, List.filter, hb]
  have := key w.numAgents (le_refl _)
  rw [occupants, this]
  simp [hm]

theorem cell_placeOn (w : World) (i : Nat) (c : Option Nat) (k : Nat) :
    ((placeOn w i c).agents k).cell = if k = i then c else (w.agents k).cell := by
  by_cases h : k = i <;> simp [placeOn, setAgent_agents, h]

theorem agent_placeOn_other (w : World) (i : Nat) (c : Option Nat) (k : Nat)
    (h : k ≠ i) : (placeOn w i c).agents k = w.agents k := by
  simp [placeOn, setAgent_agents, h]

theorem size_placeOn (w : World) (i : Nat) (c : Option Nat) (k : Nat) :
    ((placeOn w i c).agents k).size = (w.agents k).size := by
  by_cases h : k = i <;> simp [placeOn, setAgent_agents, h]

theorem breed_placeOn (w : World) (i : Nat) (c : Option Nat) (k : Nat) :
    ((placeOn w i c).agents k).breed = (w.agents k).breed := by
  by_cases h : k = i <;> simp [placeOn, setAgent_agents, h]

theorem alive_placeOn (w : World) (i : Nat) (c : Option Nat) (k : Nat) :
    ((placeOn w i c).agents k).alive = (w.agents k).alive := by
  by_cases h : k = i <;> simp [placeOn, setAgent_agents, h]

theorem cell_die (w : World) (i k : Nat) :
    ((die w i).agents k).cell = if k = i then none else (w.agents k).cell := by
  by_cases h : k = i <;> simp [die, setAgent_agents, h]

theorem alive_die (w : World) (i k : Nat) :
    ((die w i).agents k).alive = if k = i then false else (w.agents k).alive := by
  by_cases h : k = i <;> simp [die, setAgent_agents, h]

theorem cell_setSize (w : World) (i : Nat) (v : ℚ) (k : Nat) :
    ((setSize w i v).agents k).cell = (w.agents k).cell := by
  by_cases h : k = i <;> simp [setSize, setAgent_agents, h]

theorem alive_setSize (w : World) (i : Nat) (v : ℚ) (k : Nat) :
    ((setSize w i v).agents k).alive = (w.agents k).alive := by
  by_cases h : k = i <;> simp [setSize, setAgent_agents, h]

theorem breed_setSize (w : World) (i : Nat) (v : ℚ) (k : Nat) :
    ((setSize w i v).agents k).breed = (w.agents k).breed := by
  by_cases h : k = i <;> simp [setSize, setAgent_agents, h]

theorem size_setSize (w : World) (i : Nat) (v : ℚ) (k : Nat) :
    ((setSize w i v).agents k).size =
      if k = i then clampedSize w i v else (w.agents k).size := by
  by_cases h : k = i <;> simp [setSize, setAgent_agents, h]

theorem numAgents_placeOn (w : World) (i : Nat) (c : Option Nat) :
    (placeOn w i c).numAgents = w.numAgents := rfl

theorem numAgents_die (w : World) (i : Nat) : (die w i).numAgents = w.numAgents := rfl

theorem numAgents_setSize (w : World) (i : Nat) (v : ℚ) :
    (setSize w i v).numAgents = w.numAgents := rfl

theorem params_placeOn (w : World) (i : Nat) (c : Option Nat) :
    (placeOn w i c).params = w.params := rfl

theorem params_die (w : World) (i : Nat) : (die w i).params = w.params := rfl

theorem params_setSize (w : World) (i : Nat) (v : ℚ) :
    (setSize w i v).params = w.params := rfl

/-- A small concrete configuration used by the witnesses. -/
def exParams : Params :=
  { loss_rate := mkRat 1 2, intensified_coefficient := 2, is_complex := 100,
    min_size := 6, convert_prob := [("to_farmer", mkRat 1 2), ("to_rice", mkRat 1 2)],
    new_group_size := (50, 50), growth_rate := mkRat 1 10 }

/-- A uniform arable cell with carrying capacity 100. -/
def exCell : Cell := { limH := 100, isArable := true, isRiceArable := true }

/-- Witness world: agent 0 is an unplaced Hunter of size 50, agent 1 a
Hunter of size 30 sitting on cell 0. -/
def exW : World :=
  { params := exParams, cells := fun _ => exCell,
    neighbors := fun _ _ _ => [], numAgents := 2,
    agents := fun k =>
      if k = 0 then { breed := "Hunter", size := 50, alive := true, cell := none }
      else { breed := "Hunter", size := 30, alive := true, cell := some 0 },
    rng := fun _ => 0, rngIdx := 0 }

/-- Witness world: as `exW` but agent 1 is a RiceFarmer. -/
def exWRF : World :=
  { exW with agents := fun k =>
      if k = 0 then { breed := "Hunter", size := 50, alive := true, cell := some 1 }
      else { breed := "RiceFarmer", size := 30, alive := true, cell := some 0 } }

/-- A search that never finds a candidate cell. -/
def exS : SearchFn := fun _ _ _ => none

/-- A search that always finds a vacant cell. -/
def exSFresh : SearchFn := fun w _ _ => some (freshCell w)

theorem exSFresh_spec (w : World) (k r : Nat) :
    ∃ c, exSFresh w k r = some c ∧ occupants w c = [] :=
  ⟨freshCell w, rfl, occupants_freshCell w⟩

theorem bindE_assoc {α β γ : Type} (p : World × Except String α)
    (f : World → α → World × Except String β)
    (g : World → β → World × Except String γ) :
    bindE (bindE p f) g = bindE p (fun w a => bindE (f w a) g) := by
  obtain ⟨w, r⟩ := p
  cases r <;> rfl

theorem triggerE_append (f : World → Nat → World × Except String Unit)
    (l1 l2 : List Nat) (w : World) :
    triggerE f (l1 ++ l2) w =
      bindE (triggerE f l1 w) (fun w1 _ => triggerE f l2 w1) := by
  induction l1 generalizing w with
  | nil => simp [triggerE, bindE_ok]
  | cons i l1 ih =>
    simp only [List.cons_append, triggerE]
    by_cases h : onEarth w i
    · simp only [h, if_true, bindE_assoc]
      congr 1
      funext w1 a
      exact ih w1
    · simp only [h, if_false]
      exact ih w


theorem moveWith_blocked (s : SearchFn) (put : PutFn) (w : World) (i radius : Nat)
    (h : (!isComplex w i && onEarth w i) = false) :
    moveWith s put w i radius = (w, Except.ok false) := by
  simp only [moveWith, h, Bool.false_eq_true, if_false]

theorem moveWith_noCandidate (s : SearchFn) (put : PutFn) (w : World) (i radius : Nat)
    (h : (!isComplex w i && onEarth w i) = true) (hs : s w i radius = none) :
    moveWith s put w i radius = (w, Except.ok false) := by
  simp only [moveWith, h, if_true, hs]

theorem moveWith_candidate (s : SearchFn) (put : PutFn) (w : World) (i radius c : Nat)
    (h : (!isComplex w i && onEarth w i) = true) (hs : s w i radius = some c) :
    moveWith s put w i radius = mapE (put w i (some c)) (fun _ => true) := by
  simp only [moveWith, h, if_true, hs]

theorem lossWith_farmer (mv : World → Nat → World × Except String Bool) (w : World)
    (l : Nat) (h : (w.agents l).breed = "Farmer" ∨ (w.agents l).breed = "RiceFarmer") :
    lossWith mv w l = (die w l, Except.ok ()) := by
  simp only [lossWith, h, if_true]

theorem lossWith_complex (mv : World → Nat → World × Except String Bool) (w : World)
    (l : Nat) (hb : (w.agents l).breed = "Hunter") (hc : isComplex w l = true) :
    lossWith mv w l = (die w l, Except.ok ()) := by
  simp [lossWith, hb, hc]

theorem lossWith_mobile (mv : World → Nat → World × Except String Bool) (w : World)
    (l : Nat) (hb : (w.agents l).breed = "Hunter") (hc : isComplex w l = false) :
    lossWith mv w l =
      (if onEarth (setSize w l ((w.agents l).size * w.params.loss_rate)) l then
         mapE (mv (setSize w l ((w.agents l).size * w.params.loss_rate)) l) (fun _ => ())
       else (setSize w l ((w.agents l).size * w.params.loss_rate), Except.ok ())) := by
  simp [lossWith, hb, hc]

theorem lossWith_invalid (mv : World → Nat → World × Except String Bool) (w : World)
    (l : Nat) (h1 : (w.agents l).breed ≠ "Farmer") (h2 : (w.agents l).breed ≠ "RiceFarmer")
    (h3 : (w.agents l).breed ≠ "Hunter") :
    lossWith mv w l = (w, Except.error "Agent must be Farmer or Hunter.") := by
  simp [lossWith, h1, h2, h3]

theorem competeWith_farmer (loss : World → Nat → World × Except String Unit)
    (w : World) (i j : Nat)
    (h : (w.agents j).breed = "Farmer" ∨ (w.agents j).breed = "RiceFarmer") :
    competeWith loss w i j =
      (if (w.agents i).size * w.params.intensified_coefficient ≥ (w.agents j).size then
         mapE (loss w j) (fun _ => true)
       else mapE (loss w i) (fun _ => false)) := by
  simp only [competeWith, h, if_true, competeWithFarmer]

theorem competeWith_hunter (loss : World → Nat → World × Except String Unit)
    (w : World) (i j : Nat) (h : (w.agents j).breed = "Hunter") :
    competeWith loss w i j =
      (if (w.agents i).size ≥ (w.agents j).size then mapE (loss w j) (fun _ => true)
       else mapE (loss w i) (fun _ => false)) := by
  simp [competeWith, competeWithHunter, h]

theorem competeWith_invalid (loss : World → Nat → World × Except String Unit)
    (w : World) (i j : Nat) (h1 : (w.agents j).breed ≠ "Farmer")
    (h2 : (w.agents j).breed ≠ "RiceFarmer") (h3 : (w.agents j).breed ≠ "Hunter") :
    competeWith loss w i j = (w, Except.error "Agent must be Farmer or Hunter.") := by
  simp [competeWith, h1, h2, h3]

theorem putOnWith_none (cp : World → Nat → Nat → World × Except String Bool)
    (w : World) (i : Nat) :
    putOnWith cp w i none = (placeOn w i none, Except.ok ()) := rfl

theorem putOnWith_vacant (cp : World → Nat → Nat → World × Except String Bool)
    (w : World) (i c : Nat) (h : occupants w c = []) :
    putOnWith cp w i (some c) = (placeOn w i (some c), Except.ok ()) := by
  simp only [putOnWith, h, List.head?_nil]

theorem putOnWith_occupied (cp : World → Nat → Nat → World × Except String Bool)
    (w : World) (i c j : Nat) (h : (occupants w c).head? = some j) :
    putOnWith cp w i (some c) = mapE (cp (placeOn w i (some c)) i j) (fun _ => ()) := by
  simp only [putOnWith, h]

theorem moveWith_searchNone (s : SearchFn) (put : PutFn) (w : World)
    (i radius : Nat) (hs : s w i radius = none) :
    moveWith s put w i radius = (w, Except.ok false) := by
  unfold moveWith
  cases hb : (!isComplex w i && onEarth w i) <;> simp [hb, hs]

/-- Bad-breed witness world: agent 1 carries an unknown strategy tag. -/
def exWBad : World :=
  { exW with agents := fun k =>
      if k = 0 then { breed := "Hunter", size := 50, alive := true, cell := some 1 }
      else { breed := "Sheep", size := 30, alive := true, cell := some 0 } }

/-- C6: whenever the opponent's breed tag is none of Hunter, Farmer,
RiceFarmer, `compete` (and the loss handler, were it reached with such a
loser) raises `TypeError` (`Agent must be Farmer or Hunter.`), the error
propagates (it is the call's result), and the state is left unchanged. -/
theorem compete_invalid_kind (s : SearchFn) (fuel : Nat) (w : World) (i j : Nat)
    (h1 : (w.agents j).breed ≠ "Farmer") (h2 : (w.agents j).breed ≠ "RiceFarmer")
    (h3 : (w.agents j).breed ≠ "Hunter") :
    compete s fuel w i j = (w, Except.error "Agent must be Farmer or Hunter.") ∧
    lossCompetition s fuel w j = (w, Except.error "Agent must be Farmer or Hunter.") :=
  ⟨competeWith_invalid _ w i j h1 h2 h3, lossWith_invalid _ w j h1 h2 h3⟩

theorem compete_invalid_kind_witness :
    (exWBad.agents 1).breed = "Sheep" ∧
    compete exS 3 exWBad 0 1 = (exWBad, Except.error "Agent must be Farmer or Hunter.") :=
  ⟨rfl, (compete_invalid_kind exS 3 exWBad 0 1 (by decide) (by decide) (by decide)).1⟩

/-- C7: `move` returns `False` and does not relocate whenever the Hunter is
complex or unplaced; a placed, non-complex Hunter moves exactly when the
neighborhood search finds a candidate cell, relocating through `put_on`
(which may trigger competition) and returning `True`. -/
theorem move_guard_spec (s : SearchFn) (fuel : Nat) (w : World) (i radius : Nat) :
    (isComplex w i = true ∨ onEarth w i = false →
      move s fuel w i radius = (w, Except.ok false)) ∧
    (isComplex w i = false → onEarth w i = true →
      (s w i radius = none → move s fuel w i radius = (w, Except.ok false)) ∧
      (∀ c, s w i radius = some c →
        move s fuel w i radius = mapE (putOn s fuel w i (some c)) (fun _ => true))) := by
  constructor
  · intro h
    apply moveWith_blocked
    rcases h with h | h <;> simp [h]
  · intro hc he
    exact ⟨fun hs => moveWith_noCandidate s _ w i radius (by simp [hc, he]) hs,
           fun c hs => moveWith_candidate s _ w i radius c (by simp [hc, he]) hs⟩

theorem move_guard_spec_witness :
    onEarth exW 0 = false ∧ move exS 3 exW 0 1 = (exW, Except.ok false) :=
  ⟨rfl, (move_guard_spec exS 3 exW 0 1).1 (Or.inr rfl)⟩

/-- C8: for a Hunter whose size is below `max_size`, `diffuse` is a no-op:
it returns no new group and the whole state (in particular the parent) is
unchanged; and `max_size` is the ceiling of the occupied cell's `lim_h`
when placed, the constant 100000000 when unplaced. -/
theorem diffuse_below_max_noop (w : World) (i : Nat)
    (h : (w.agents i).size < maxSize w i) :
    diffuse w i = (w, Except.ok none) ∧
    (∀ c, (w.agents i).cell = some c → maxSize w i = (⌈(w.cells c).limH⌉ : ℚ)) ∧
    ((w.agents i).cell = none → maxSize w i = 100000000) := by
  refine ⟨?_, ?_, ?_⟩
  · simp [diffuse, not_le.mpr h]
  · intro c hc
    simp [maxSize, hc]
  · intro hc
    simp [maxSize, hc]

theorem diffuse_below_max_noop_witness :
    (exW.agents 1).size < maxSize exW 1 ∧ diffuse exW 1 = (exW, Except.ok none) :=
  ⟨by decide, (diffuse_below_max_noop exW 1 (by decide)).1⟩

/-- Witness world with an empty `convert_prob` mapping; agent 0 placed. -/
def exWNoProb : World :=
  { exW with params := { exParams with convert_prob := [] },
             agents := fun k =>
               if k = 0 then { breed := "Hunter", size := 50, alive := true, cell := some 1 }
               else { breed := "Hunter", size := 30, alive := true, cell := some 0 } }

/-- C9: a conversion path whose `convert_prob` key is absent defaults to
probability zero, so for any non-negative draw the path reports no
conversion (only the draw is consumed), whatever the neighbors and the
arability flags are. -/
theorem convert_prob_missing_never_converts (w : World) (i c radius : Nat)
    (moore : Bool) (hc : (w.agents i).cell = some c) (hr : 0 ≤ w.rng w.rngIdx) :
    (w.params.convert_prob.lookup "to_farmer" = none →
      convertToFarmer w i radius moore = (advanceRng w 1, Except.ok false)) ∧
    (w.params.convert_prob.lookup "to_rice" = none →
      convertToRice w i radius moore = (advanceRng w 1, Except.ok false)) := by
  constructor
  · intro hk
    have hp : probGet w.params.convert_prob "to_farmer" = 0 := by simp [probGet, hk]
    simp only [convertToFarmer, hc, hp, decide_eq_false (not_lt.mpr hr),
      Bool.and_false, Bool.false_eq_true, if_false]
  · intro hk
    have hp : probGet w.params.convert_prob "to_rice" = 0 := by simp [probGet, hk]
    simp only [convertToRice, hc, hp, decide_eq_false (not_lt.mpr hr),
      Bool.and_false, Bool.false_eq_true, if_false]

theorem convert_prob_missing_never_converts_witness :
    exWNoProb.params.convert_prob.lookup "to_farmer" = none ∧
    convertToFarmer exWNoProb 0 1 false = (advanceRng exWNoProb 1, Except.ok false) :=
  ⟨rfl, (convert_prob_missing_never_converts exWNoProb 0 1 1 false rfl (by decide)).1 rfl⟩

/-- C1: `compete` with a Hunter opponent decides by direct size comparison
and with a Farmer/RiceFarmer opponent by `size * intensified_coefficient`
against the opponent's size; `>=` means a tie favors the initiator; the
loss penalty is applied exactly to the losing side (the opponent when the
call returns `True`, the initiator when it returns `False`). -/
theorem compete_rule_table (s : SearchFn) (fuel : Nat) (w : World) (i j : Nat) :
    ((w.agents j).breed = "Hunter" →
      compete s fuel w i j =
        (if (w.agents i).size ≥ (w.agents j).size then
           mapE (lossCompetition s fuel w j) (fun _ => true)
         else mapE (lossCompetition s fuel w i) (fun _ => false))) ∧
    ((w.agents j).breed = "Farmer" ∨ (w.agents j).breed = "RiceFarmer" →
      compete s fuel w i j =
        (if (w.agents i).size * w.params.intensified_coefficient ≥ (w.agents j).size then
           mapE (lossCompetition s fuel w j) (fun _ => true)
         else mapE (lossCompetition s fuel w i) (fun _ => false))) :=
  ⟨fun h => competeWith_hunter _ w i j h, fun h => competeWith_farmer _ w i j h⟩

/-- Placed variant of `exW`: both hunters are on cells, agent 0 on cell 1. -/
def exWP : World :=
  { exW with agents := fun k =>
      if k = 0 then { breed := "Hunter", size := 50, alive := true, cell := some 1 }
      else { breed := "Hunter", size := 30, alive := true, cell := some 0 } }

theorem compete_rule_table_witness :
    (exWP.agents 1).breed = "Hunter" ∧
    compete exS 1 exWP 0 1 = mapE (lossCompetition exS 1 exWP 1) (fun _ => true) ∧
    (exWRF.agents 1).breed = "RiceFarmer" ∧
    compete exS 1 exWRF 0 1 = mapE (lossCompetition exS 1 exWRF 1) (fun _ => true) := by
  refine ⟨rfl, ?_, rfl, ?_⟩
  · rw [(compete_rule_table exS 1 exWP 0 1).1 rfl, if_pos (by decide)]
  · rw [(compete_rule_table exS 1 exWRF 0 1).2 (Or.inr rfl), if_pos ?_]
    show (50 : ℚ) * (2 : ℚ) ≥ (30 : ℚ)
    norm_num

/-- The three farmer-path conditions of `_convert_to_farmer` as one flag
(neighboring Farmer, arable cell, fresh draw under the threshold). -/
def farmerCond (w : World) (c radius : Nat) (moore : Bool) : Bool :=
  (w.neighbors c radius moore).any (fun x => hasAgentBreed w "Farmer" x) &&
  (w.cells c).isArable &&
  decide (w.rng w.rngIdx < probGet w.params.convert_prob "to_farmer")

/-- The three rice-path conditions of `_convert_to_rice` as one flag. -/
def riceCond (w : World) (c radius : Nat) (moore : Bool) : Bool :=
  (w.neighbors c radius moore).any (fun x => hasAgentBreed w "RiceFarmer" x) &&
  (w.cells c).isRiceArable &&
  decide (w.rng w.rngIdx < probGet w.params.convert_prob "to_rice")

theorem convertToFarmer_eq (w : World) (i c radius : Nat) (moore : Bool)
    (hc : (w.agents i).cell = some c) :
    convertToFarmer w i radius moore =
      (if farmerCond w c radius moore then
         (cellConvert (advanceRng w 1) i "Farmer", Except.ok true)
       else (advanceRng w 1, Except.ok false)) := by
  simp only [convertToFarmer, hc, farmerCond]

theorem convertToRice_eq (w : World) (i c radius : Nat) (moore : Bool)
    (hc : (w.agents i).cell = some c) :
    convertToRice w i radius moore =
      (if riceCond w c radius moore then
         (cellConvert (advanceRng w 1) i "RiceFarmer", Except.ok true)
       else (advanceRng w 1, Except.ok false)) := by
  simp only [convertToRice, hc, riceCond]

/-- C3: `convert` evaluates the farmer path first and the rice path only
when the farmer path did not convert, so one call never converts through
both; each evaluated path consumes its own fresh draw (the farmer path
reads draw `rngIdx`, the rice path draw `rngIdx + 1`); when neither path
fires the agents are untouched and exactly two draws were consumed. -/
theorem convert_order_spec (w : World) (i c radius : Nat) (moore : Bool)
    (hc : (w.agents i).cell = some c) :
    (farmerCond w c radius moore = true →
      convert w i radius moore =
        (cellConvert (advanceRng w 1) i "Farmer", Except.ok true)) ∧
    (farmerCond w c radius moore = false →
      convert w i radius moore = convertToRice (advanceRng w 1) i radius moore) ∧
    (farmerCond w c radius moore = false →
      riceCond (advanceRng w 1) c radius moore = false →
      convert w i radius moore = (advanceRng w 2, Except.ok false) ∧
      (advanceRng w 2).agents = w.agents ∧
      (advanceRng w 2).rngIdx = w.rngIdx + 2) := by
  have hF := convertToFarmer_eq w i c radius moore hc
  refine ⟨?_, ?_, ?_⟩
  · intro h
    simp only [convert, hF, h, if_true, bindE_ok, if_pos]
  · intro h
    simp only [convert, hF, h, Bool.false_eq_true, if_false, bindE_ok]
  · intro h hr
    have hc2 : ((advanceRng w 1).agents i).cell = some c := hc
    have hR := convertToRice_eq (advanceRng w 1) i c radius moore hc2
    refine ⟨?_, rfl, rfl⟩
    simp only [convert, hF, h, Bool.false_eq_true, if_false, bindE_ok]
    simp only [hR, hr, Bool.false_eq_true, if_false]
    rfl

theorem convert_order_spec_witness :
    farmerCond exWP 1 1 false = false ∧
    riceCond (advanceRng exWP 1) 1 1 false = false ∧
    convert exWP 0 1 false = (advanceRng exWP 2, Except.ok false) :=
  ⟨by decide, by decide,
   ((convert_order_spec exWP 0 1 1 false rfl).2.2 (by decide) (by decide)).1⟩

theorem move_agents_preserved (s : SearchFn) (fuel : Nat) (w : World) (i r k : Nat)
    (hs : ∀ w2 m rr c, s w2 m rr = some c → occupants w2 c = []) :
    ((move s fuel w i r).1.agents k).alive = (w.agents k).alive ∧
    ((move s fuel w i r).1.agents k).size = (w.agents k).size := by
  by_cases hgo : (!isComplex w i && onEarth w i) = true
  · cases hsc : s w i r with
    | none =>
      rw [show move s fuel w i r = moveWith s (putOn s fuel) w i r from rfl,
          moveWith_noCandidate s _ w i r hgo hsc]
      exact ⟨rfl, rfl⟩
    | some c =>
      rw [show move s fuel w i r = moveWith s (putOn s fuel) w i r from rfl,
          moveWith_candidate s _ w i r c hgo hsc, mapE_fst]
      cases fuel with
      | zero => exact ⟨rfl, rfl⟩
      | succ f =>
        rw [putOn_succ, putOnWith_vacant _ w i c (hs w i r c hsc)]
        exact ⟨alive_placeOn w i (some c) k, size_placeOn w i (some c) k⟩
  · simp only [Bool.not_eq_true] at hgo
    rw [show move s fuel w i r = moveWith s (putOn s fuel) w i r from rfl,
        moveWith_blocked s _ w i r hgo]
    exact ⟨rfl, rfl⟩

/-- C2: on a competition loss, a Farmer/RiceFarmer loser dies at once; a
complex Hunter loser dies; a non-complex Hunter loser has its size
multiplied by `loss_rate` (through the clamping setter) and, exactly when
it is still placed after the reduction, attempts one `move`; hence (under
the vacant-target search contract of `search_a_new_place`) a
Farmer/RiceFarmer loser is dead afterwards and a Hunter loser is dead
afterwards iff it was complex before the loss. -/
theorem loss_competition_penalty (s : SearchFn) (fuel : Nat) (w : World) (l : Nat)
    (hs : ∀ w2 m rr c, s w2 m rr = some c → occupants w2 c = []) :
    ((w.agents l).breed = "Farmer" ∨ (w.agents l).breed = "RiceFarmer" →
      lossCompetition s fuel w l = (die w l, Except.ok ()) ∧
      ((lossCompetition s fuel w l).1.agents l).alive = false) ∧
    ((w.agents l).breed = "Hunter" → isComplex w l = true →
      lossCompetition s fuel w l = (die w l, Except.ok ()) ∧
      ((lossCompetition s fuel w l).1.agents l).alive = false) ∧
    ((w.agents l).breed = "Hunter" → isComplex w l = false →
      lossCompetition s fuel w l =
        (if onEarth (setSize w l ((w.agents l).size * w.params.loss_rate)) l then
           mapE (move s fuel (setSize w l ((w.agents l).size * w.params.loss_rate)) l 1)
             (fun _ => ())
         else (setSize w l ((w.agents l).size * w.params.loss_rate), Except.ok ())) ∧
      ((lossCompetition s fuel w l).1.agents l).alive = (w.agents l).alive ∧
      ((lossCompetition s fuel w l).1.agents l).size =
        clampedSize w l ((w.agents l).size * w.params.loss_rate)) := by
  refine ⟨?_, ?_, ?_⟩
  · intro h
    have he : lossCompetition s fuel w l = (die w l, Except.ok ()) :=
      lossWith_farmer _ w l h
    refine ⟨he, ?_⟩
    rw [he]
    simp [alive_die]
  · intro hb hcx
    have he : lossCompetition s fuel w l = (die w l, Except.ok ()) :=
      lossWith_complex _ w l hb hcx
    refine ⟨he, ?_⟩
    rw [he]
    simp [alive_die]
  · intro hb hcx
    have he : lossCompetition s fuel w l =
        (if onEarth (setSize w l ((w.agents l).size * w.params.loss_rate)) l then
           mapE (move s fuel (setSize w l ((w.agents l).size * w.params.loss_rate)) l 1)
             (fun _ => ())
         else (setSize w l ((w.agents l).size * w.params.loss_rate), Except.ok ())) :=
      lossWith_mobile (fun w2 m => move s fuel w2 m 1) w l hb hcx
    refine ⟨he, ?_, ?_⟩
    · rw [he]
      by_cases ho : onEarth (setSize w l ((w.agents l).size * w.params.loss_rate)) l = true
      · simp only [ho, if_true, mapE_fst]
        rw [(move_agents_preserved s fuel _ l 1 l hs).1, alive_setSize]
      · simp only [Bool.not_eq_true] at ho
        simp only [ho, Bool.false_eq_true, if_false]
        rw [alive_setSize]
    · rw [he]
      by_cases ho : onEarth (setSize w l ((w.agents l).size * w.params.loss_rate)) l = true
      · simp only [ho, if_true, mapE_fst]
        rw [(move_agents_preserved s fuel _ l 1 l hs).2]
        simp [size_setSize]
      · simp only [Bool.not_eq_true] at ho
        simp only [ho, Bool.false_eq_true, if_false]
        simp [size_setSize]

theorem loss_competition_penalty_witness :
    (exWP.agents 1).breed = "Hunter" ∧ isComplex exWP 1 = false ∧
    ((lossCompetition exS 1 exWP 1).1.agents 1).alive = true ∧
    ((lossCompetition exS 1 exWP 1).1.agents 1).size =
      clampedSize exWP 1 ((exWP.agents 1).size * exWP.params.loss_rate) := by
  have h := (loss_competition_penalty exS 1 exWP 1 (by simp [exS])).2.2 rfl (by decide)
  exact ⟨rfl, by decide, by rw [h.2.1]; rfl, h.2.2⟩

/-- C4: one tick is the fixed sequence growth, then conversion, then
diffusion, then hunter movement (each phase running to completion before
the next starts, an exception aborting the tick); and the roster iteration
underlying every phase skips any agent that is not alive/placed at the
moment the iteration reaches it, including one that died earlier during
the same phase. -/
theorem step_phase_order (addFarmers : World → World) (s : SearchFn) (fuel : Nat)
    (w : World) :
    step addFarmers s fuel w =
      bindE (growthPhase (addFarmers w)) (fun w1 _ =>
      bindE (convertPhase w1) (fun w2 _ =>
      bindE (diffusePhase w2) (fun w3 _ => movePhase s fuel w3))) ∧
    (∀ f pre i post, (triggerE f pre w).2 = Except.ok () →
       onEarth (triggerE f pre w).1 i = false →
       triggerE f (pre ++ i :: post) w = triggerE f post (triggerE f pre w).1) := by
  refine ⟨rfl, ?_⟩
  intro f pre i post hok hdead
  rw [triggerE_append]
  rcases hp : triggerE f pre w with ⟨w1, r⟩
  rw [hp] at hok hdead
  dsimp only at hok hdead
  subst hok
  rw [bindE_ok]
  simp [triggerE, hdead]

theorem step_phase_order_witness :
    (triggerE (fun w2 _ => (die w2 1, Except.ok ())) [1] exW).2 = Except.ok () ∧
    onEarth (triggerE (fun w2 _ => (die w2 1, Except.ok ())) [1] exW).1 1 = false ∧
    triggerE (fun w2 _ => (die w2 1, Except.ok ())) ([1] ++ 1 :: [0]) exW =
      triggerE (fun w2 _ => (die w2 1, Except.ok ())) [0]
        (triggerE (fun w2 _ => (die w2 1, Except.ok ())) [1] exW).1 := by
  refine ⟨rfl, rfl, ?_⟩
  exact (step_phase_order (fun w2 => w2) exS 1 exW).2 _ [1] 1 [0] rfl rfl

/-- C5 fails as stated: agent 0 (Hunter, size 50) is put on cell 0 already
occupied by agent 1 (non-complex Hunter, size 30); competition runs, the
incumbent loses and shrinks, but its defeat-move finds no vacant cell
(`exS` never finds one), so after `put_on` returns the cell still holds
two live occupants. -/
theorem put_on_single_occupancy_cex :
    occupants exW 0 = [1] ∧
    (occupants ((putOn exS 1 exW 0 (some 0)).1) 0).length = 2 := by
  have h1 : occupants exW 0 = [1] := by decide
  refine ⟨h1, ?_⟩
  have e1 : putOn exS 1 exW 0 (some 0) = putOnWith (compete exS 0) exW 0 (some 0) :=
    putOn_succ exS 0 exW 0 (some 0)
  have e2 : putOnWith (compete exS 0) exW 0 (some 0) =
      mapE (compete exS 0 (placeOn exW 0 (some 0)) 0 1) (fun _ => ()) :=
    putOnWith_occupied _ exW 0 0 1 (by rw [h1]; rfl)
  have e3 : compete exS 0 (placeOn exW 0 (some 0)) 0 1 =
      mapE (lossCompetition exS 0 (placeOn exW 0 (some 0)) 1) (fun _ => true) := by
    have h := competeWith_hunter (lossCompetition exS 0) (placeOn exW 0 (some 0)) 0 1 rfl
    rw [if_pos (show ((placeOn exW 0 (some 0)).agents 0).size ≥
      ((placeOn exW 0 (some 0)).agents 1).size by decide)] at h
    exact h
  have e4 : lossCompetition exS 0 (placeOn exW 0 (some 0)) 1 =
      (if onEarth (setSize (placeOn exW 0 (some 0)) 1
            (((placeOn exW 0 (some 0)).agents 1).size *
              (placeOn exW 0 (some 0)).params.loss_rate)) 1 then
         mapE (move exS 0 (setSize (placeOn exW 0 (some 0)) 1
            (((placeOn exW 0 (some 0)).agents 1).size *
              (placeOn exW 0 (some 0)).params.loss_rate)) 1 1) (fun _ => ())
       else (setSize (placeOn exW 0 (some 0)) 1
            (((placeOn exW 0 (some 0)).agents 1).size *
              (placeOn exW 0 (some 0)).params.loss_rate), Except.ok ())) :=
    lossWith_mobile (fun w2 m => move exS 0 w2 m 1) (placeOn exW 0 (some 0)) 1 rfl
      (by decide)
  have ho : onEarth (setSize (placeOn exW 0 (some 0)) 1
      (((placeOn exW 0 (some 0)).agents 1).size *
        (placeOn exW 0 (some 0)).params.loss_rate)) 1 = true := by decide
  have e5 : move exS 0 (setSize (placeOn exW 0 (some 0)) 1
      (((placeOn exW 0 (some 0)).agents 1).size *
        (placeOn exW 0 (some 0)).params.loss_rate)) 1 1 =
      (setSize (placeOn exW 0 (some 0)) 1
        (((placeOn exW 0 (some 0)).agents 1).size *
          (placeOn exW 0 (some 0)).params.loss_rate), Except.ok false) :=
    moveWith_searchNone exS _ _ 1 1 rfl
  rw [e1, e2, mapE_fst, e3, mapE_fst, e4]
  simp only [ho, if_true]
  rw [mapE_fst, e5]
  decide

theorem agent_die_other (w : World) (l k : Nat) (h : k ≠ l) :
    (die w l).agents k = w.agents k := by
  simp [die, setAgent_agents, h]

theorem agent_setSize_other (w : World) (l : Nat) (v : ℚ) (k : Nat) (h : k ≠ l) :
    (setSize w l v).agents k = w.agents k := by
  simp [setSize, setAgent_agents, h]

theorem occupants_single_facts (w : World) (c j : Nat) (h : occupants w c = [j]) :
    j < w.numAgents ∧ (w.agents j).cell = some c ∧
    (∀ k, k < w.numAgents → (w.agents k).cell = some c → k = j) := by
  have hj : j ∈ occupants w c := by rw [h]; exact List.mem_singleton.mpr rfl
  rw [mem_occupants] at hj
  refine ⟨hj.1, hj.2, fun k hk hkc => ?_⟩
  have : k ∈ occupants w c := (mem_occupants w c k).mpr ⟨hk, hkc⟩
  rw [h] at this
  exact List.mem_singleton.mp this

theorem shrunk_not_complex (w : World) (l : Nat) (h : isComplex w l = false)
    (h0 : 0 ≤ (w.agents l).size) (hl1 : w.params.loss_rate ≤ 1)
    (hm : w.params.min_size ≤ w.params.is_complex) :
    isComplex (setSize w l ((w.agents l).size * w.params.loss_rate)) l = false := by
  have hoe : onEarth (setSize w l ((w.agents l).size * w.params.loss_rate)) l
      = onEarth w l := by
    simp [onEarth, cell_setSize]
  by_cases he : onEarth w l = true
  · have hsz : (w.agents l).size ≤ w.params.is_complex := by
      by_contra hgt
      rw [isComplex, he] at h
      simp [not_le.mp hgt] at h
    have hv : (w.agents l).size * w.params.loss_rate ≤ w.params.is_complex :=
      le_trans (mul_le_of_le_one_right h0 hl1) hsz
    have hcl : clampedSize w l ((w.agents l).size * w.params.loss_rate) ≤
        w.params.is_complex := by
      rw [clampedSize_eq]
      exact max_le hm (le_trans (min_le_left _ _) hv)
    rw [isComplex, hoe, he, Bool.true_and]
    have : ((setSize w l ((w.agents l).size * w.params.loss_rate)).agents l).size =
        clampedSize w l ((w.agents l).size * w.params.loss_rate) := by
      simp [size_setSize]
    rw [this, params_setSize]
    exact decide_eq_false (not_lt.mpr hcl)
  · simp only [Bool.not_eq_true] at he
    simp [isComplex, hoe, he]

theorem lossCompetition_off_cell (s : SearchFn) (fuel : Nat) (w1 : World) (l c : Nat)
    (hbl : (w1.agents l).breed = "Hunter" ∨ (w1.agents l).breed = "Farmer" ∨
           (w1.agents l).breed = "RiceFarmer")
    (hlc : (w1.agents l).cell = some c)
    (hlLt : l < w1.numAgents)
    (h0 : 0 ≤ (w1.agents l).size)
    (hl1 : w1.params.loss_rate ≤ 1)
    (hmth : w1.params.min_size ≤ w1.params.is_complex)
    (hs : ∀ w2 k r, ∃ c2, s w2 k r = some c2 ∧ occupants w2 c2 = []) :
    ((lossCompetition s (fuel + 1) w1 l).1.agents l).cell ≠ some c ∧
    (∀ k, k ≠ l → (lossCompetition s (fuel + 1) w1 l).1.agents k = w1.agents k) ∧
    (lossCompetition s (fuel + 1) w1 l).1.numAgents = w1.numAgents := by
  rcases hbl with hh | hf
  · by_cases hcx : isComplex w1 l = true
    · have he : lossCompetition s (fuel + 1) w1 l = (die w1 l, Except.ok ()) :=
        lossWith_complex _ w1 l hh hcx
      rw [he]
      refine ⟨?_, fun k hk => agent_die_other w1 l k hk, rfl⟩
      rw [cell_die]
      simp
    · simp only [Bool.not_eq_true] at hcx
      have he : lossCompetition s (fuel + 1) w1 l =
          (if onEarth (setSize w1 l ((w1.agents l).size * w1.params.loss_rate)) l then
             mapE (move s (fuel + 1)
               (setSize w1 l ((w1.agents l).size * w1.params.loss_rate)) l 1)
               (fun _ => ())
           else (setSize w1 l ((w1.agents l).size * w1.params.loss_rate),
                 Except.ok ())) :=
        lossWith_mobile (fun w2 m => move s (fuel + 1) w2 m 1) w1 l hh hcx
      have ho : onEarth (setSize w1 l ((w1.agents l).size * w1.params.loss_rate)) l
          = true := by
        simp [onEarth, cell_setSize, hlc]
      have hcx2 : isComplex (setSize w1 l ((w1.agents l).size * w1.params.loss_rate)) l
          = false := shrunk_not_complex w1 l hcx h0 hl1 hmth
      obtain ⟨c2, hsc, hvac⟩ :=
        hs (setSize w1 l ((w1.agents l).size * w1.params.loss_rate)) l 1
      have hgo : (!isComplex (setSize w1 l ((w1.agents l).size * w1.params.loss_rate)) l
          && onEarth (setSize w1 l ((w1.agents l).size * w1.params.loss_rate)) l)
          = true := by rw [hcx2, ho]; rfl
      have e5 : move s (fuel + 1)
          (setSize w1 l ((w1.agents l).size * w1.params.loss_rate)) l 1 =
          mapE (putOn s (fuel + 1)
            (setSize w1 l ((w1.agents l).size * w1.params.loss_rate)) l (some c2))
            (fun _ => true) :=
        moveWith_candidate s _ _ l 1 c2 hgo hsc
      have e6 : putOn s (fuel + 1)
          (setSize w1 l ((w1.agents l).size * w1.params.loss_rate)) l (some c2) =
          (placeOn (setSize w1 l ((w1.agents l).size * w1.params.loss_rate)) l
            (some c2), Except.ok ()) := by
        rw [putOn_succ]
        exact putOnWith_vacant _ _ l c2 hvac
      have hne : c2 ≠ c := by
        intro hcc
        subst hcc
        have hmem : l ∈ occupants
            (setSize w1 l ((w1.agents l).size * w1.params.loss_rate)) c2 := by
          rw [mem_occupants]
          refine ⟨?_, ?_⟩
          · rw [numAgents_setSize]; exact hlLt
          · rw [cell_setSize]; exact hlc
        rw [hvac] at hmem
        cases hmem
      rw [he]
      simp only [ho, if_true, mapE_fst, e5, mapE_fst, e6]
      refine ⟨?_, fun k hk => ?_, rfl⟩
      · rw [cell_placeOn]
        simp only [if_pos rfl]
        intro hcc
        exact hne (Option.some.inj hcc)
      · rw [agent_placeOn_other _ _ _ _ hk, agent_setSize_other _ _ _ _ hk]
  · have he : lossCompetition s (fuel + 1) w1 l = (die w1 l, Except.ok ()) :=
      lossWith_farmer _ w1 l hf
    rw [he]
    refine ⟨?_, fun k hk => agent_die_other w1 l k hk, rfl⟩
    rw [cell_die]
    simp

theorem occupants_after_loss (s : SearchFn) (fuel : Nat) (w1 : World) (l m c : Nat)
    (hlm : l ≠ m)
    (hbl : (w1.agents l).breed = "Hunter" ∨ (w1.agents l).breed = "Farmer" ∨
           (w1.agents l).breed = "RiceFarmer")
    (hlc : (w1.agents l).cell = some c) (hmc : (w1.agents m).cell = some c)
    (hlLt : l < w1.numAgents) (hmLt : m < w1.numAgents)
    (huniq2 : ∀ k, k < w1.numAgents → (w1.agents k).cell = some c → k = l ∨ k = m)
    (h0 : 0 ≤ (w1.agents l).size)
    (hl1 : w1.params.loss_rate ≤ 1)
    (hmth : w1.params.min_size ≤ w1.params.is_complex)
    (hs : ∀ w2 k r, ∃ c2, s w2 k r = some c2 ∧ occupants w2 c2 = []) :
    occupants ((lossCompetition s (fuel + 1) w1 l).1) c = [m] := by
  obtain ⟨hoff, hother, hnum⟩ :=
    lossCompetition_off_cell s fuel w1 l c hbl hlc hlLt h0 hl1 hmth hs
  apply occupants_eq_single
  · rw [hnum]; exact hmLt
  · rw [hother m (Ne.symm hlm)]; exact hmc
  · intro k hk hkc
    rw [hnum] at hk
    by_cases hkl : k = l
    · subst hkl
      exact absurd hkc hoff
    · rw [hother k hkl] at hkc
      rcases huniq2 k hk hkc with h | h
      · exact absurd h hkl
      · exact h

/-- C5, amended: when a Hunter is put on an occupied cell, competition with
the incumbent runs immediately inside `put_on`; afterwards the cell holds
at most one live occupant **provided** that a surviving (non-complex
Hunter) loser's relocation search finds a vacant cell — the search contract
`hs` below.  As `put_on_single_occupancy_cex` shows, without that proviso
the defeated group can stay put and the cell keeps two occupants. -/
theorem put_on_single_occupancy_amended (s : SearchFn) (fuel : Nat) (w : World)
    (i j c : Nat)
    (hbi : (w.agents i).breed = "Hunter")
    (hbj : (w.agents j).breed = "Hunter" ∨ (w.agents j).breed = "Farmer" ∨
           (w.agents j).breed = "RiceFarmer")
    (hij : i ≠ j)
    (hocc : occupants w c = [j])
    (hiLt : i < w.numAgents)
    (h0i : 0 ≤ (w.agents i).size)
    (h0j : 0 ≤ (w.agents j).size)
    (hl1 : w.params.loss_rate ≤ 1)
    (hmth : w.params.min_size ≤ w.params.is_complex)
    (hs : ∀ w2 k r, ∃ c2, s w2 k r = some c2 ∧ occupants w2 c2 = []) :
    (occupants ((putOn s (fuel + 2) w i (some c)).1) c).length ≤ 1 := by
  obtain ⟨hjLt, hjc, huniq⟩ := occupants_single_facts w c j hocc
  have hhead : (occupants w c).head? = some j := by rw [hocc]; rfl
  have e1 : putOn s (fuel + 2) w i (some c) =
      putOnWith (compete s (fuel + 1)) w i (some c) := putOn_succ s (fuel + 1) w i _
  rw [e1, putOnWith_occupied _ w i c j hhead, mapE_fst]
  have hji : j ≠ i := Ne.symm hij
  have hagj : (placeOn w i (some c)).agents j = w.agents j :=
    agent_placeOn_other w i (some c) j hji
  have hbi1 : ((placeOn w i (some c)).agents i).breed = "Hunter" := by
    rw [breed_placeOn]; exact hbi
  have hic1 : ((placeOn w i (some c)).agents i).cell = some c := by
    rw [cell_placeOn]; simp
  have hjc1 : ((placeOn w i (some c)).agents j).cell = some c := by
    rw [hagj]; exact hjc
  have hiLt1 : i < (placeOn w i (some c)).numAgents := hiLt
  have hjLt1 : j < (placeOn w i (some c)).numAgents := hjLt
  have h0i1 : 0 ≤ ((placeOn w i (some c)).agents i).size := by
    rw [size_placeOn]; exact h0i
  have h0j1 : 0 ≤ ((placeOn w i (some c)).agents j).size := by
    rw [size_placeOn]; exact h0j
  have hl11 : (placeOn w i (some c)).params.loss_rate ≤ 1 := hl1
  have hmth1 : (placeOn w i (some c)).params.min_size ≤
      (placeOn w i (some c)).params.is_complex := hmth
  have huniq2 : ∀ k, k < (placeOn w i (some c)).numAgents →
      ((placeOn w i (some c)).agents k).cell = some c → k = i ∨ k = j := by
    intro k hk hkc
    by_cases hki : k = i
    · exact Or.inl hki
    · rw [agent_placeOn_other w i (some c) k hki] at hkc
      exact Or.inr (huniq k hk hkc)
  have huniq2a : ∀ k, k < (placeOn w i (some c)).numAgents →
      ((placeOn w i (some c)).agents k).cell = some c → k = j ∨ k = i := by
    intro k hk hkc
    exact (huniq2 k hk hkc).symm
  rcases hbj with hbjH | hbjF
  · have hbj1 : ((placeOn w i (some c)).agents j).breed = "Hunter" := by
      rw [hagj]; exact hbjH
    have he : compete s (fuel + 1) (placeOn w i (some c)) i j =
        (if ((placeOn w i (some c)).agents i).size ≥
            ((placeOn w i (some c)).agents j).size then
           mapE (lossCompetition s (fuel + 1) (placeOn w i (some c)) j) (fun _ => true)
         else mapE (lossCompetition s (fuel + 1) (placeOn w i (some c)) i)
           (fun _ => false)) :=
      competeWith_hunter _ _ i j hbj1
    rw [he]
    by_cases hwin : ((placeOn w i (some c)).agents i).size ≥
        ((placeOn w i (some c)).agents j).size
    · rw [if_pos hwin, mapE_fst,
        occupants_after_loss s fuel _ j i c hji (Or.inl hbj1) hjc1 hic1 hjLt1 hiLt1
          huniq2a h0j1 hl11 hmth1 hs]
      simp
    · rw [if_neg hwin, mapE_fst,
        occupants_after_loss s fuel _ i j c hij (Or.inl hbi1) hic1 hjc1 hiLt1 hjLt1
          huniq2 h0i1 hl11 hmth1 hs]
      simp
  · have hbj1 : ((placeOn w i (some c)).agents j).breed = "Farmer" ∨
        ((placeOn w i (some c)).agents j).breed = "RiceFarmer" := by
      rw [hagj]; exact hbjF
    have he : compete s (fuel + 1) (placeOn w i (some c)) i j =
        (if ((placeOn w i (some c)).agents i).size *
            (placeOn w i (some c)).params.intensified_coefficient ≥
            ((placeOn w i (some c)).agents j).size then
           mapE (lossCompetition s (fuel + 1) (placeOn w i (some c)) j) (fun _ => true)
         else mapE (lossCompetition s (fuel + 1) (placeOn w i (some c)) i)
           (fun _ => false)) :=
      competeWith_farmer _ _ i j hbj1
    rw [he]
    by_cases hwin : ((placeOn w i (some c)).agents i).size *
        (placeOn w i (some c)).params.intensified_coefficient ≥
        ((placeOn w i (some c)).agents j).size
    · rw [if_pos hwin, mapE_fst,
        occupants_after_loss s fuel _ j i c hji (Or.inr hbj1) hjc1 hic1 hjLt1 hiLt1
          huniq2a h0j1 hl11 hmth1 hs]
      simp
    · rw [if_neg hwin, mapE_fst,
        occupants_after_loss s fuel _ i j c hij (Or.inl hbi1) hic1 hjc1 hiLt1 hjLt1
          huniq2 h0i1 hl11 hmth1 hs]
      simp

theorem put_on_single_occupancy_amended_witness :
    occupants exW 0 = [1] ∧
    (occupants ((putOn exSFresh 2 exW 0 (some 0)).1) 0).length ≤ 1 :=
  ⟨by decide,
   put_on_single_occupancy_amended exSFresh 0 exW 0 1 0 rfl (Or.inl rfl) (by decide)
     (by decide) (by decide) (by decide) (by decide) (by decide) (by decide)
     exSFresh_spec⟩

/-- C10 fails as stated: with a RiceFarmer opponent (a tag both groups can
carry in the current code base) the legacy `compete` raises `TypeError`
while the current `compete` treats it like a Farmer and succeeds. -/
theorem legacy_compete_divergence_cex :
    (exWRF.agents 1).breed = "RiceFarmer" ∧
    (legacyCompete exS exWRF 0 1).2 = Except.error "Agent must be Farmer or Hunter." ∧
    (compete exS 1 exWRF 0 1).2 = Except.ok true := by
  refine ⟨rfl, rfl, ?_⟩
  have he : compete exS 1 exWRF 0 1 =
      mapE (lossCompetition exS 1 exWRF 1) (fun _ => true) := by
    have h := competeWith_farmer (lossCompetition exS 1) exWRF 0 1 (Or.inr rfl)
    rw [if_pos (show (exWRF.agents 0).size * exWRF.params.intensified_coefficient ≥
      (exWRF.agents 1).size from by
        show (50 : ℚ) * 2 ≥ 30
        norm_num)] at h
    exact h
  have hl : lossCompetition exS 1 exWRF 1 = (die exWRF 1, Except.ok ()) :=
    lossWith_farmer _ exWRF 1 (Or.inr rfl)
  rw [he, hl]
  rfl

theorem legacy_loss_agrees_hunter (s : SearchFn) (fuel : Nat) (w : World) (l : Nat)
    (hb : (w.agents l).breed = "Hunter")
    (hp : (w.agents l).cell.isSome = true)
    (hc : isComplex w l = false)
    (h0 : 0 ≤ (w.agents l).size)
    (hl1 : w.params.loss_rate ≤ 1)
    (hmth : w.params.min_size ≤ w.params.is_complex)
    (hs : ∀ w2 k r c2, s w2 k r = some c2 → occupants w2 c2 = []) :
    legacyLossCompetition s w l = lossCompetition s (fuel + 1) w l := by
  have hleg : legacyLossCompetition s w l =
      moveTo s (setSize w l ((w.agents l).size * w.params.loss_rate)) l := by
    simp [legacyLossCompetition, hb]
  have he : lossCompetition s (fuel + 1) w l =
      (if onEarth (setSize w l ((w.agents l).size * w.params.loss_rate)) l then
         mapE (move s (fuel + 1)
           (setSize w l ((w.agents l).size * w.params.loss_rate)) l 1) (fun _ => ())
       else (setSize w l ((w.agents l).size * w.params.loss_rate), Except.ok ())) :=
    lossWith_mobile (fun w2 m => move s (fuel + 1) w2 m 1) w l hb hc
  have ho : onEarth (setSize w l ((w.agents l).size * w.params.loss_rate)) l = true := by
    simp only [onEarth, cell_setSize]
    exact hp
  have hcx2 : isComplex (setSize w l ((w.agents l).size * w.params.loss_rate)) l
      = false := shrunk_not_complex w l hc h0 hl1 hmth
  have hgo : (!isComplex (setSize w l ((w.agents l).size * w.params.loss_rate)) l &&
      onEarth (setSize w l ((w.agents l).size * w.params.loss_rate)) l) = true := by
    rw [hcx2, ho]; rfl
  rw [hleg, he]
  simp only [ho, if_true]
  cases hsc : s (setSize w l ((w.agents l).size * w.params.loss_rate)) l 1 with
  | none =>
    rw [show move s (fuel + 1) (setSize w l ((w.agents l).size * w.params.loss_rate)) l 1
        = (setSize w l ((w.agents l).size * w.params.loss_rate), Except.ok false) from
      moveWith_noCandidate s _ _ l 1 hgo hsc]
    simp [moveTo, hsc]
    rfl
  | some c2 =>
    rw [show move s (fuel + 1) (setSize w l ((w.agents l).size * w.params.loss_rate)) l 1
        = mapE (putOn s (fuel + 1)
            (setSize w l ((w.agents l).size * w.params.loss_rate)) l (some c2))
            (fun _ => true) from
      moveWith_candidate s _ _ l 1 c2 hgo hsc]
    rw [show putOn s (fuel + 1)
        (setSize w l ((w.agents l).size * w.params.loss_rate)) l (some c2) =
        (placeOn (setSize w l ((w.agents l).size * w.params.loss_rate)) l (some c2),
         Except.ok ()) from by
      rw [putOn_succ]
      exact putOnWith_vacant _ _ l c2 (hs _ l 1 c2 hsc)]
    simp [moveTo, hsc]
    rfl

/-- The losing side of `Hunter.compete`'s dispatch: against a
Farmer/RiceFarmer the initiator `i` loses iff its intensified power is
below the opponent's size, against a Hunter iff its size is smaller
(ties favor the initiator). -/
def loserIdx (w : World) (i j : Nat) : Nat :=
  if (w.agents j).breed = "Farmer" ∨ (w.agents j).breed = "RiceFarmer" then
    (if (w.agents i).size * w.params.intensified_coefficient ≥ (w.agents j).size
     then j else i)
  else
    (if (w.agents i).size ≥ (w.agents j).size then j else i)

/-- C10, amended: the legacy and current competition agree — same winner,
same penalty, same error behavior — on opponents tagged Hunter or Farmer
whenever the losing side, if it is a Hunter, is placed and not complex
(and relocation targets are vacant); the divergences forced by
`legacy_compete_divergence_cex` (and by the legacy loss handler) remain:
a RiceFarmer opponent makes the legacy raise where the current competes,
and a complex Hunter loser dies in the current code but only shrinks and
relocates in the legacy code. -/
theorem legacy_compete_agreement_amended (s : SearchFn) (fuel : Nat) (w : World)
    (i j : Nat)
    (hbi : (w.agents i).breed = "Hunter")
    (hbj : (w.agents j).breed = "Hunter" ∨ (w.agents j).breed = "Farmer")
    (hL : (w.agents (loserIdx w i j)).breed = "Hunter" →
       isComplex w (loserIdx w i j) = false ∧
       (w.agents (loserIdx w i j)).cell.isSome = true ∧
       0 ≤ (w.agents (loserIdx w i j)).size)
    (hl1 : w.params.loss_rate ≤ 1)
    (hmth : w.params.min_size ≤ w.params.is_complex)
    (hs : ∀ w2 k r c2, s w2 k r = some c2 → occupants w2 c2 = []) :
    legacyCompete s w i j = compete s (fuel + 1) w i j := by
  rcases hbj with hbjH | hbjF
  · have hLdef : loserIdx w i j =
        (if (w.agents i).size ≥ (w.agents j).size then j else i) := by
      simp [loserIdx, hbjH]
    have hcur : compete s (fuel + 1) w i j =
        (if (w.agents i).size ≥ (w.agents j).size then
           mapE (lossCompetition s (fuel + 1) w j) (fun _ => true)
         else mapE (lossCompetition s (fuel + 1) w i) (fun _ => false)) :=
      competeWith_hunter _ w i j hbjH
    rw [hcur]
    by_cases hw : (w.agents i).size ≥ (w.agents j).size
    · have hLj : loserIdx w i j = j := by rw [hLdef, if_pos hw]
      obtain ⟨hcj, hpj, h0j⟩ := hL (by rw [hLj]; exact hbjH)
      rw [hLj] at hcj hpj h0j
      rw [if_pos hw, legacyCompete,
        if_pos (Or.inr ⟨by rw [hbjH]; decide, hbjH, hw⟩),
        legacy_loss_agrees_hunter s fuel w j hbjH hpj hcj h0j hl1 hmth hs]
    · have hLi : loserIdx w i j = i := by rw [hLdef, if_neg hw]
      obtain ⟨hci, hpi, h0i⟩ := hL (by rw [hLi]; exact hbi)
      rw [hLi] at hci hpi h0i
      rw [if_neg hw, legacyCompete]
      rw [if_neg (by
        rintro (⟨hf, _⟩ | ⟨_, _, hw2⟩)
        · rw [hbjH] at hf; exact absurd hf (by decide)
        · exact hw hw2)]
      rw [if_neg (by
        rintro ⟨_, hh⟩
        exact hh hbjH)]
      rw [legacy_loss_agrees_hunter s fuel w i hbi hpi hci h0i hl1 hmth hs]
  · have hLdef : loserIdx w i j =
        (if (w.agents i).size * w.params.intensified_coefficient ≥
            (w.agents j).size then j else i) := by
      simp [loserIdx, hbjF]
    have hcur : compete s (fuel + 1) w i j =
        (if (w.agents i).size * w.params.intensified_coefficient ≥
            (w.agents j).size then
           mapE (lossCompetition s (fuel + 1) w j) (fun _ => true)
         else mapE (lossCompetition s (fuel + 1) w i) (fun _ => false)) :=
      competeWith_farmer _ w i j (Or.inl hbjF)
    rw [hcur]
    by_cases hw : (w.agents i).size * w.params.intensified_coefficient ≥
        (w.agents j).size
    · rw [if_pos hw, legacyCompete, if_pos (Or.inl ⟨hbjF, hw⟩)]
      rw [show legacyLossCompetition s w j = (die w j, Except.ok ()) from by
        simp [legacyLossCompetition, hbjF]]
      rw [show lossCompetition s (fuel + 1) w j = (die w j, Except.ok ()) from
        lossWith_farmer _ w j (Or.inl hbjF)]
    · have hLi : loserIdx w i j = i := by rw [hLdef, if_neg hw]
      obtain ⟨hci, hpi, h0i⟩ := hL (by rw [hLi]; exact hbi)
      rw [hLi] at hci hpi h0i
      rw [if_neg hw, legacyCompete]
      rw [if_neg (by
        rintro (⟨_, hw2⟩ | ⟨hf, _, _⟩)
        · exact hw hw2
        · exact hf hbjF)]
      rw [if_neg (by
        rintro ⟨hf, _⟩
        exact hf hbjF)]
      rw [legacy_loss_agrees_hunter s fuel w i hbi hpi hci h0i hl1 hmth hs]

/-- The spec's Forager-vs-Farmer scenario: a complex Hunter (size 500,
above the threshold 100) against a Farmer of size 400. -/
def exWC : World :=
  { exW with agents := fun k =>
      if k = 0 then { breed := "Hunter", size := 500, alive := true, cell := some 1 }
      else { breed := "Farmer", size := 400, alive := true, cell := some 0 } }

theorem legacy_compete_agreement_amended_witness :
    (exWP.agents 1).breed = "Hunter" ∧
    legacyCompete exS exWP 0 1 = compete exS 1 exWP 0 1 ∧
    isComplex exWC 0 = true ∧ (exWC.agents 1).breed = "Farmer" ∧
    legacyCompete exS exWC 0 1 = compete exS 1 exWC 0 1 := by
  have hvac : ∀ w2 k r c2, exS w2 k r = some c2 → occupants w2 c2 = [] := by
    intro w2 k r c2 h
    exact Option.noConfusion h
  refine ⟨rfl, ?_, by decide, rfl, ?_⟩
  · exact legacy_compete_agreement_amended exS 0 exWP 0 1 rfl (Or.inl rfl)
      (fun _ => ⟨by decide, by decide, by decide⟩) (by decide) (by decide) hvac
  · have hLk : loserIdx exWC 0 1 = 1 := by
      simp only [loserIdx]
      rw [if_pos (show (exWC.agents 1).breed = "Farmer" ∨
          (exWC.agents 1).breed = "RiceFarmer" from Or.inl rfl)]
      rw [if_pos (show (exWC.agents 0).size * exWC.params.intensified_coefficient ≥
          (exWC.agents 1).size from by
        show (500 : ℚ) * 2 ≥ 400
        norm_num)]
    exact legacy_compete_agreement_amended exS 0 exWC 0 1 rfl (Or.inr rfl)
      (fun h => absurd (hLk ▸ h) (by decide)) (by decide) (by decide) hvac
